import Mathlib

/-!
Verification of `analyze_trades.py` from the `pm_analyze_script` repository.

The core function `analyze_trades` is embedded shallowly below.  Monetary
amounts, sizes and prices are modelled as exact rationals (`ℚ`); timestamps
are integers (epoch seconds, per the data model).  `datetime.fromtimestamp`
is injective on epoch seconds, so the `datetime` values carried around by the
script are modelled by the underlying timestamp itself.  Division sites of the
Python code are additionally mirrored in a checked variant (`Option`-valued,
failing on a zero denominator) to reason about division-by-zero safety.
-/

/-- One trade record, as consumed by `analyze_trades` (a JSON object with
fields `timestamp`, `side`, `outcome`, `size`, `price`).  `side` and
`outcome` are arbitrary strings: the code dispatches on string equality with
`"BUY"` and `"Up"` and has no validation. -/
structure Trade where
  timestamp : Int
  side : String
  outcome : String
  size : ℚ
  price : ℚ
deriving DecidableEq

/-- The comparison used by `trades.sort(key=lambda x: x["timestamp"])`. -/
def tsLE (a b : Trade) : Prop := a.timestamp ≤ b.timestamp

instance : DecidableRel tsLE :=
  fun a b => inferInstanceAs (Decidable (a.timestamp ≤ b.timestamp))

instance : IsTotal Trade tsLE := ⟨fun a b => Int.le_total a.timestamp b.timestamp⟩

instance : IsTrans Trade tsLE := ⟨fun _ _ _ h h' => le_trans h h'⟩

/-- The sort `trades.sort(key=lambda x: x["timestamp"])`: Python `list.sort` is a
stable sort on the timestamp key; modelled as insertion sort, which is
stable (an element is inserted after all equal keys already placed). -/
def sortTrades (l : List Trade) : List Trade := l.insertionSort tsLE

/-- One element of `profitability_timeline`.  The Python dict stores both the
raw `timestamp` and the derived `datetime`; the latter is modelled by the
timestamp (see the header comment). -/
structure TimelineEntry where
  timestamp : Int
  datetime : Int
  up_avg_price : ℚ
  down_avg_price : ℚ
  total_avg_price : ℚ
  is_profitable : Option Bool
  up_position : ℚ
  down_position : ℚ
deriving DecidableEq

def dummyEntry : TimelineEntry :=
  ⟨0, 0, 0, 0, 0, none, 0, 0⟩

/-- One interval dict `{"start": ..., "end": ...}`; the Python key `end` is a
Lean keyword, rendered here as `stop`. -/
structure ProfitInterval where
  start : Int
  stop : Int
deriving DecidableEq

/-- The mutable accumulators of the processing loop of `analyze_trades`
(lines 33-56 of the source), bundled as a state record. -/
structure TrackState where
  up_buys : List Trade
  up_sells : List Trade
  down_buys : List Trade
  down_sells : List Trade
  up_shares_bought : ℚ
  up_shares_sold : ℚ
  up_cost_basis : ℚ
  up_proceeds : ℚ
  down_shares_bought : ℚ
  down_shares_sold : ℚ
  down_cost_basis : ℚ
  down_proceeds : ℚ
  up_position : ℚ
  down_position : ℚ
  up_avg_price : ℚ
  down_avg_price : ℚ
  up_total_cost : ℚ
  down_total_cost : ℚ
  profitability_timeline : List TimelineEntry
deriving DecidableEq

def initState : TrackState :=
  ⟨[], [], [], [], 0, 0, 0, 0, 0, 0, 0, 0, 0, 0, 0, 0, 0, 0, []⟩

/-- The profitability evaluation appended to the timeline after each trade
(lines 113-135 of the source), computed from the post-update state. -/
def mkEntry (t : Trade) (s : TrackState) : TimelineEntry :=
  let total_avg_price : ℚ :=
    if 0 < s.up_position ∧ 0 < s.down_position then
      s.up_avg_price + s.down_avg_price
    else if 0 < s.up_position ∨ 0 < s.down_position then
      (if 0 < s.up_position then s.up_avg_price else 0) +
        (if 0 < s.down_position then s.down_avg_price else 0)
    else 0
  let is_profitable : Option Bool :=
    if 0 < s.up_position ∧ 0 < s.down_position then
      some (decide (total_avg_price < 1))
    else none
  { timestamp := t.timestamp
    datetime := t.timestamp
    up_avg_price := s.up_avg_price
    down_avg_price := s.down_avg_price
    total_avg_price := total_avg_price
    is_profitable := is_profitable
    up_position := s.up_position
    down_position := s.down_position }

/-- The body of the `for trade in trades` loop (lines 59-135 of the source):
position-tracking update followed by the timeline append. -/
def processTrade (s : TrackState) (t : Trade) : TrackState :=
  let value := t.size * t.price
  let s1 : TrackState :=
    if t.outcome = "Up" then
      if t.side = "BUY" then
        let pos := s.up_position + t.size
        let tc := s.up_total_cost + value
        { s with
          up_buys := s.up_buys ++ [t]
          up_shares_bought := s.up_shares_bought + t.size
          up_cost_basis := s.up_cost_basis + value
          up_total_cost := tc
          up_position := pos
          up_avg_price := if 0 < pos then tc / pos else s.up_avg_price }
      else
        let pos := s.up_position - t.size
        { s with
          up_sells := s.up_sells ++ [t]
          up_shares_sold := s.up_shares_sold + t.size
          up_proceeds := s.up_proceeds + value
          up_position := pos
          up_total_cost := if 0 < pos then s.up_total_cost - t.size * s.up_avg_price else 0
          up_avg_price :=
            if 0 < pos then (s.up_total_cost - t.size * s.up_avg_price) / pos else 0 }
    else
      if t.side = "BUY" then
        let pos := s.down_position + t.size
        let tc := s.down_total_cost + value
        { s with
          down_buys := s.down_buys ++ [t]
          down_shares_bought := s.down_shares_bought + t.size
          down_cost_basis := s.down_cost_basis + value
          down_total_cost := tc
          down_position := pos
          down_avg_price := if 0 < pos then tc / pos else s.down_avg_price }
      else
        let pos := s.down_position - t.size
        { s with
          down_sells := s.down_sells ++ [t]
          down_shares_sold := s.down_shares_sold + t.size
          down_proceeds := s.down_proceeds + value
          down_position := pos
          down_total_cost := if 0 < pos then s.down_total_cost - t.size * s.down_avg_price else 0
          down_avg_price :=
            if 0 < pos then (s.down_total_cost - t.size * s.down_avg_price) / pos else 0 }
  { s1 with profitability_timeline := s1.profitability_timeline ++ [mkEntry t s1] }

/-- The tracker state after the first `n` trades of the sorted stream have
been processed ("after each processed trade" is `trackAfter trades n` for
`1 ≤ n ≤ length`). -/
def trackAfter (trades : List Trade) (n : Nat) : TrackState :=
  ((sortTrades trades).take n).foldl processTrade initState

/-- Python `list.index`: the position of the first element equal to `e`
(the list always contains `e` where this is used, so the out-of-range result
for a missing element is never exercised). -/
def firstIdx (e : TimelineEntry) : List TimelineEntry → Nat
  | [] => 0
  | x :: xs => if x = e then 0 else firstIdx e xs + 1

/-- The lookup `profitability_timeline[profitability_timeline.index(entry) - 1]["datetime"]`
(lines 169/174 of the source).  Python `list.index` returns the position of
the first equal element, and when it returns 0 the subscript `-1` denotes the
last element of the list. -/
def prevDatetime (timeline : List TimelineEntry) (e : TimelineEntry) : Int :=
  let i := firstIdx e timeline
  if i = 0 then (timeline.getLastD dummyEntry).datetime
  else (timeline.getD (i - 1) dummyEntry).datetime

/-- One step of the interval-detection scan (lines 159-178 of the source),
with accumulator `(current_state, interval_start, profitable, unprofitable)`. -/
def intervalStep (timeline : List TimelineEntry)
    (acc : Option Bool × Option Int × List ProfitInterval × List ProfitInterval)
    (e : TimelineEntry) : Option Bool × Option Int × List ProfitInterval × List ProfitInterval :=
  match e.is_profitable with
  | none => acc
  | some b =>
    match acc with
    | (cur, st, profs, unprofs) =>
      if cur ≠ some b then
        let closed : List ProfitInterval × List ProfitInterval :=
          match cur, st with
          | some c, some s0 =>
            if c then (profs ++ [⟨s0, prevDatetime timeline e⟩], unprofs)
            else (profs, unprofs ++ [⟨s0, prevDatetime timeline e⟩])
          | _, _ => (profs, unprofs)
        (some b, some e.datetime, closed.1, closed.2)
      else acc

/-- The interval detector (lines 153-191 of the source): the scan followed by
the closing of the final interval at the last timeline entry's datetime. -/
def detectIntervals (timeline : List TimelineEntry) : List ProfitInterval × List ProfitInterval :=
  match timeline.foldl (intervalStep timeline) (none, none, [], []) with
  | (cur, st, profs, unprofs) =>
    match cur, st with
    | some c, some s0 =>
      if c then (profs ++ [⟨s0, (timeline.getLastD dummyEntry).datetime⟩], unprofs)
      else (profs, unprofs ++ [⟨s0, (timeline.getLastD dummyEntry).datetime⟩])
    | _, _ => (profs, unprofs)

/-- First timeline entry whose `is_profitable` equals `some b`
(lines 193-201 of the source). -/
def firstMoment (b : Bool) (timeline : List TimelineEntry) : Option Int :=
  (timeline.find? (fun e => e.is_profitable == some b)).map (fun e => e.datetime)

/-- Inter-trade gaps in minutes over consecutive sorted trades
(line 206 of the source). -/
def timeDiffs (sorted : List Trade) : List ℚ :=
  (sorted.zip sorted.tail).map
    (fun p => ((p.2.timestamp - p.1.timestamp : Int) : ℚ) / 60)

/-- The dict returned by `analyze_trades` (lines 219-251 of the source). -/
structure AnalysisResult where
  up_buys : List Trade
  up_sells : List Trade
  down_buys : List Trade
  down_sells : List Trade
  up_shares_bought : ℚ
  up_shares_sold : ℚ
  down_shares_bought : ℚ
  down_shares_sold : ℚ
  up_cost_basis : ℚ
  up_proceeds : ℚ
  down_cost_basis : ℚ
  down_proceeds : ℚ
  up_final_position : ℚ
  down_final_position : ℚ
  up_avg_price : ℚ
  down_avg_price : ℚ
  profitability_timeline : List TimelineEntry
  profitable_intervals : List ProfitInterval
  unprofitable_intervals : List ProfitInterval
  first_profitable : Option Int
  first_unprofitable : Option Int
  up_realized_pnl : ℚ
  down_realized_pnl : ℚ
  total_realized_pnl : ℚ
  avg_time_between_trades : ℚ
  up_buy_prices : List ℚ
  up_sell_prices : List ℚ
  down_buy_prices : List ℚ
  down_sell_prices : List ℚ
  up_buy_sizes : List ℚ
  down_buy_sizes : List ℚ
deriving DecidableEq

/-- The whole of `analyze_trades` (lines 26-251 of the source). -/
def analyze_trades (trades : List Trade) : AnalysisResult :=
  let sorted := sortTrades trades
  let s := sorted.foldl processTrade initState
  let up_final_position := s.up_shares_bought - s.up_shares_sold
  let down_final_position := s.down_shares_bought - s.down_shares_sold
  let up_realized_pnl := s.up_proceeds -
    s.up_shares_sold *
      (if 0 < s.up_shares_bought then s.up_cost_basis / s.up_shares_bought else 0)
  let down_realized_pnl := s.down_proceeds -
    s.down_shares_sold *
      (if 0 < s.down_shares_bought then s.down_cost_basis / s.down_shares_bought else 0)
  let iv := detectIntervals s.profitability_timeline
  let diffs := timeDiffs sorted
  { up_buys := s.up_buys
    up_sells := s.up_sells
    down_buys := s.down_buys
    down_sells := s.down_sells
    up_shares_bought := s.up_shares_bought
    up_shares_sold := s.up_shares_sold
    down_shares_bought := s.down_shares_bought
    down_shares_sold := s.down_shares_sold
    up_cost_basis := s.up_cost_basis
    up_proceeds := s.up_proceeds
    down_cost_basis := s.down_cost_basis
    down_proceeds := s.down_proceeds
    up_final_position := up_final_position
    down_final_position := down_final_position
    up_avg_price := if 0 < up_final_position then s.up_avg_price else 0
    down_avg_price := if 0 < down_final_position then s.down_avg_price else 0
    profitability_timeline := s.profitability_timeline
    profitable_intervals := iv.1
    unprofitable_intervals := iv.2
    first_profitable := firstMoment true s.profitability_timeline
    first_unprofitable := firstMoment false s.profitability_timeline
    up_realized_pnl := up_realized_pnl
    down_realized_pnl := down_realized_pnl
    total_realized_pnl := up_realized_pnl + down_realized_pnl
    avg_time_between_trades := if diffs = [] then 0 else diffs.sum / (diffs.length : ℚ)
    up_buy_prices := s.up_buys.map (fun t => t.price)
    up_sell_prices := s.up_sells.map (fun t => t.price)
    down_buy_prices := s.down_buys.map (fun t => t.price)
    down_sell_prices := s.down_sells.map (fun t => t.price)
    up_buy_sizes := s.up_buys.map (fun t => t.size)
    down_buy_sizes := s.down_buys.map (fun t => t.size) }

/-- Division as performed by Python's `/`, made explicit: it fails (raises
`ZeroDivisionError`) when the denominator is zero. -/
def cdiv (a b : ℚ) : Option ℚ := if b = 0 then none else some (a / b)

/-- Variant of `processTrade` with every division site routed through `cdiv`: the value
is `none` exactly when the Python loop body would raise `ZeroDivisionError`. -/
def processTradeChecked (s : TrackState) (t : Trade) : Option TrackState := do
  let value := t.size * t.price
  let s1 ←
    if t.outcome = "Up" then
      if t.side = "BUY" then
        let pos := s.up_position + t.size
        let tc := s.up_total_cost + value
        let ap ← if 0 < pos then cdiv tc pos else pure s.up_avg_price
        pure { s with
          up_buys := s.up_buys ++ [t]
          up_shares_bought := s.up_shares_bought + t.size
          up_cost_basis := s.up_cost_basis + value
          up_total_cost := tc
          up_position := pos
          up_avg_price := ap }
      else
        let pos := s.up_position - t.size
        let tcap ←
          if 0 < pos then do
            let tc := s.up_total_cost - t.size * s.up_avg_price
            let ap ← cdiv tc pos
            pure (tc, ap)
          else pure ((0 : ℚ), (0 : ℚ))
        pure { s with
          up_sells := s.up_sells ++ [t]
          up_shares_sold := s.up_shares_sold + t.size
          up_proceeds := s.up_proceeds + value
          up_position := pos
          up_total_cost := tcap.1
          up_avg_price := tcap.2 }
    else
      if t.side = "BUY" then
        let pos := s.down_position + t.size
        let tc := s.down_total_cost + value
        let ap ← if 0 < pos then cdiv tc pos else pure s.down_avg_price
        pure { s with
          down_buys := s.down_buys ++ [t]
          down_shares_bought := s.down_shares_bought + t.size
          down_cost_basis := s.down_cost_basis + value
          down_total_cost := tc
          down_position := pos
          down_avg_price := ap }
      else
        let pos := s.down_position - t.size
        let tcap ←
          if 0 < pos then do
            let tc := s.down_total_cost - t.size * s.down_avg_price
            let ap ← cdiv tc pos
            pure (tc, ap)
          else pure ((0 : ℚ), (0 : ℚ))
        pure { s with
          down_sells := s.down_sells ++ [t]
          down_shares_sold := s.down_shares_sold + t.size
          down_proceeds := s.down_proceeds + value
          down_position := pos
          down_total_cost := tcap.1
          down_avg_price := tcap.2 }
  pure { s1 with profitability_timeline := s1.profitability_timeline ++ [mkEntry t s1] }

/-- Checked division by 60 mapped over the consecutive pairs. -/
def cdivGaps : List (Trade × Trade) → Option (List ℚ)
  | [] => some []
  | p :: ps => do
    let d ← cdiv ((p.2.timestamp - p.1.timestamp : Int) : ℚ) 60
    let rest ← cdivGaps ps
    pure (d :: rest)

/-- Variant of `timeDiffs` with the division by 60 routed through `cdiv`. -/
def timeDiffsChecked (sorted : List Trade) : Option (List ℚ) :=
  cdivGaps (sorted.zip sorted.tail)

/-- Variant of `analyze_trades` with every division site of the source routed through
`cdiv`: the result is `none` exactly when the Python function would raise
`ZeroDivisionError` somewhere. -/
def analyzeChecked (trades : List Trade) : Option AnalysisResult := do
  let sorted := sortTrades trades
  let s ← sorted.foldlM processTradeChecked initState
  let up_final_position := s.up_shares_bought - s.up_shares_sold
  let down_final_position := s.down_shares_bought - s.down_shares_sold
  let upTerm ←
    if 0 < s.up_shares_bought then cdiv s.up_cost_basis s.up_shares_bought else pure 0
  let downTerm ←
    if 0 < s.down_shares_bought then cdiv s.down_cost_basis s.down_shares_bought else pure 0
  let up_realized_pnl := s.up_proceeds - s.up_shares_sold * upTerm
  let down_realized_pnl := s.down_proceeds - s.down_shares_sold * downTerm
  let iv := detectIntervals s.profitability_timeline
  let diffs ← timeDiffsChecked sorted
  let avg ← if diffs = [] then pure (0 : ℚ) else cdiv diffs.sum (diffs.length : ℚ)
  pure
    { up_buys := s.up_buys
      up_sells := s.up_sells
      down_buys := s.down_buys
      down_sells := s.down_sells
      up_shares_bought := s.up_shares_bought
      up_shares_sold := s.up_shares_sold
      down_shares_bought := s.down_shares_bought
      down_shares_sold := s.down_shares_sold
      up_cost_basis := s.up_cost_basis
      up_proceeds := s.up_proceeds
      down_cost_basis := s.down_cost_basis
      down_proceeds := s.down_proceeds
      up_final_position := up_final_position
      down_final_position := down_final_position
      up_avg_price := if 0 < up_final_position then s.up_avg_price else 0
      down_avg_price := if 0 < down_final_position then s.down_avg_price else 0
      profitability_timeline := s.profitability_timeline
      profitable_intervals := iv.1
      unprofitable_intervals := iv.2
      first_profitable := firstMoment true s.profitability_timeline
      first_unprofitable := firstMoment false s.profitability_timeline
      up_realized_pnl := up_realized_pnl
      down_realized_pnl := down_realized_pnl
      total_realized_pnl := up_realized_pnl + down_realized_pnl
      avg_time_between_trades := avg
      up_buy_prices := s.up_buys.map (fun t => t.price)
      up_sell_prices := s.up_sells.map (fun t => t.price)
      down_buy_prices := s.down_buys.map (fun t => t.price)
      down_sell_prices := s.down_sells.map (fun t => t.price)
      up_buy_sizes := s.up_buys.map (fun t => t.size)
      down_buy_sizes := s.down_buys.map (fun t => t.size) }

/-- A state with the four collected trade lists cleared: the projection of the
tracker state onto everything except the raw trade records it stores. -/
def stripTrades (s : TrackState) : TrackState :=
  { s with up_buys := [], up_sells := [], down_buys := [], down_sells := [] }

/-- Membership test for `up_buys`: `outcome == "Up" and side == "BUY"`. -/
def isUpBuy (t : Trade) : Bool := decide (t.outcome = "Up") && decide (t.side = "BUY")

/-- Membership test for `up_sells`: `outcome == "Up"` and the `else` branch
of the side dispatch, i.e. `side != "BUY"`. -/
def isUpSell (t : Trade) : Bool := decide (t.outcome = "Up") && !(decide (t.side = "BUY"))

/-- Membership test for `down_buys`: `outcome != "Up" and side == "BUY"`. -/
def isDownBuy (t : Trade) : Bool := !(decide (t.outcome = "Up")) && decide (t.side = "BUY")

/-- Membership test for `down_sells`: `outcome != "Up" and side != "BUY"`. -/
def isDownSell (t : Trade) : Bool := !(decide (t.outcome = "Up")) && !(decide (t.side = "BUY"))

/-- Trades carrying a given timestamp (used to express stable reordering). -/
def hasTs (τ : Int) (t : Trade) : Bool := decide (t.timestamp = τ)

/-- Timeline with a null entry (single-sided hedge) strictly between the last
profitable entry and the state change: BUY Up 10@0.40, BUY Down 10@0.40,
SELL Down 10@0.50, BUY Down 10@0.70. -/
def exC1 : List Trade :=
  [⟨0, "BUY", "Up", 10, 2/5⟩, ⟨1, "BUY", "Down", 10, 2/5⟩,
   ⟨2, "SELL", "Down", 10, 1/2⟩, ⟨3, "BUY", "Down", 10, 7/10⟩]

/-- An oversell followed by a buy that leaves the position still negative. -/
def exC2 : List Trade :=
  [⟨0, "SELL", "Up", 10, 1/2⟩, ⟨1, "BUY", "Up", 5, 2/5⟩]

/-- Scenario 4 of the spec: BUY Up 10@0.40, then SELL Up 10@0.50. -/
def exS4 : List Trade :=
  [⟨0, "BUY", "Up", 10, 2/5⟩, ⟨1, "SELL", "Up", 10, 1/2⟩]

/-- Scenario 1 of the spec: a single BUY Up 10@0.40. -/
def exS1 : List Trade := [⟨0, "BUY", "Up", 10, 2/5⟩]

/-- Two trades with distinct timestamps, out of order. -/
def exSwap1 : List Trade := [⟨5, "BUY", "Up", 1, 1/2⟩, ⟨3, "BUY", "Down", 2, 1/4⟩]

/-- The same two trades in timestamp order. -/
def exSwap2 : List Trade := [⟨3, "BUY", "Down", 2, 1/4⟩, ⟨5, "BUY", "Up", 1, 1/2⟩]

/-- A trade whose `side` and `outcome` are unrecognized strings. -/
def tOdd : Trade := ⟨0, "HOLD", "Sideways", 3, 1/2⟩

/-- The timeline entry produced by scenario 1 (single BUY Up 10@0.40). -/
def eS1 : TimelineEntry := ⟨0, 0, 2/5, 0, 2/5, none, 10, 0⟩

theorem cdiv_of_pos {b : ℚ} (h : 0 < b) (a : ℚ) : cdiv a b = some (a / b) := by
  simp [cdiv, ne_of_gt h]

theorem cdiv_sixty (a : ℚ) : cdiv a 60 = some (a / 60) := by
  norm_num [cdiv]

theorem processTradeChecked_eq (s : TrackState) (t : Trade) :
    processTradeChecked s t = some (processTrade s t) := by
  unfold processTradeChecked processTrade
  by_cases ho : t.outcome = "Up" <;> by_cases hs : t.side = "BUY" <;>
    simp only [ho, hs, if_true, if_false] <;>
    split_ifs with h1 <;>
    first
      | simp [cdiv_of_pos h1, Option.bind]
      | simp [Option.bind]

theorem foldlM_processChecked (l : List Trade) :
    ∀ s : TrackState, l.foldlM processTradeChecked s = some (l.foldl processTrade s) := by
  induction l with
  | nil => intro s; rfl
  | cons t ts ih =>
    intro s
    simp [List.foldlM_cons, processTradeChecked_eq, ih]

theorem cdivGaps_eq (ps : List (Trade × Trade)) :
    cdivGaps ps
      = some (ps.map (fun p => ((p.2.timestamp - p.1.timestamp : Int) : ℚ) / 60)) := by
  induction ps with
  | nil => rfl
  | cons p ps ih => simp [cdivGaps, ih, cdiv_sixty]

theorem timeDiffsChecked_eq (l : List Trade) :
    timeDiffsChecked l = some (timeDiffs l) :=
  cdivGaps_eq _

theorem cdiv_length {l : List ℚ} (h : ¬ l = []) (a : ℚ) :
    cdiv a (l.length : ℚ) = some (a / (l.length : ℚ)) := by
  have hp : 0 < ((l.length : ℚ)) := by
    exact_mod_cast List.length_pos.mpr h
  exact cdiv_of_pos hp a

theorem analyzeChecked_eq (trades : List Trade) :
    analyzeChecked trades = some (analyze_trades trades) := by
  unfold analyzeChecked analyze_trades
  simp only [foldlM_processChecked, timeDiffsChecked_eq, bind, Option.bind]
  split_ifs <;> simp_all [cdiv_of_pos, cdiv_length]

theorem posInv_step (s : TrackState) (t : Trade)
    (h1 : s.up_position = s.up_shares_bought - s.up_shares_sold)
    (h2 : s.down_position = s.down_shares_bought - s.down_shares_sold) :
    (processTrade s t).up_position
        = (processTrade s t).up_shares_bought - (processTrade s t).up_shares_sold
      ∧ (processTrade s t).down_position
        = (processTrade s t).down_shares_bought - (processTrade s t).down_shares_sold := by
  unfold processTrade
  by_cases ho : t.outcome = "Up" <;> by_cases hs : t.side = "BUY" <;>
    simp [ho, hs] <;> constructor <;> linarith [h1, h2]

theorem posInv_fold (l : List Trade) :
    ∀ s : TrackState,
      s.up_position = s.up_shares_bought - s.up_shares_sold →
      s.down_position = s.down_shares_bought - s.down_shares_sold →
      (l.foldl processTrade s).up_position
          = (l.foldl processTrade s).up_shares_bought - (l.foldl processTrade s).up_shares_sold
        ∧ (l.foldl processTrade s).down_position
          = (l.foldl processTrade s).down_shares_bought - (l.foldl processTrade s).down_shares_sold := by
  induction l with
  | nil => intro s h1 h2; exact ⟨h1, h2⟩
  | cons t ts ih =>
    intro s h1 h2
    have h := posInv_step s t h1 h2
    simpa using ih _ h.1 h.2

theorem avgInv_step (s : TrackState) (t : Trade) (hsz : 0 ≤ t.size)
    (h1 : s.up_position ≤ 0 → s.up_avg_price = 0)
    (h2 : s.down_position ≤ 0 → s.down_avg_price = 0) :
    ((processTrade s t).up_position ≤ 0 → (processTrade s t).up_avg_price = 0)
      ∧ ((processTrade s t).down_position ≤ 0 → (processTrade s t).down_avg_price = 0) := by
  unfold processTrade
  by_cases ho : t.outcome = "Up" <;> by_cases hs : t.side = "BUY" <;>
    simp [ho, hs] <;> constructor <;> intro hp <;>
    first
      | exact h1 hp
      | exact h2 hp
      | (intro h; linarith)
      | (split_ifs with h
         · linarith
         · first
             | rfl
             | exact h1 (by linarith)
             | exact h2 (by linarith))

theorem avgInv_fold (l : List Trade) :
    ∀ s : TrackState, (∀ t ∈ l, 0 ≤ t.size) →
      (s.up_position ≤ 0 → s.up_avg_price = 0) →
      (s.down_position ≤ 0 → s.down_avg_price = 0) →
      ((l.foldl processTrade s).up_position ≤ 0 → (l.foldl processTrade s).up_avg_price = 0)
        ∧ ((l.foldl processTrade s).down_position ≤ 0 →
            (l.foldl processTrade s).down_avg_price = 0) := by
  induction l with
  | nil => intro s _ h1 h2; exact ⟨h1, h2⟩
  | cons t ts ih =>
    intro s hsz h1 h2
    have h := avgInv_step s t (hsz t (by simp)) h1 h2
    simpa using ih _ (fun u hu => hsz u (by simp [hu])) h.1 h.2

theorem sell_reset (s : TrackState) (t : Trade) (hside : ¬ t.side = "BUY") :
    (t.outcome = "Up" → (processTrade s t).up_position ≤ 0 →
        (processTrade s t).up_total_cost = 0 ∧ (processTrade s t).up_avg_price = 0)
      ∧ (¬ t.outcome = "Up" → (processTrade s t).down_position ≤ 0 →
        (processTrade s t).down_total_cost = 0 ∧ (processTrade s t).down_avg_price = 0) := by
  constructor <;> intro ho hp <;> unfold processTrade at * <;> simp [ho, hside] at * <;>
    constructor <;> intro h <;> linarith
/-- C5: for every trade sequence and every outcome, after each processed
trade the running position equals shares bought minus shares sold. -/
theorem position_eq_bought_sub_sold (trades : List Trade) (n : Nat) :
    (trackAfter trades n).up_position
        = (trackAfter trades n).up_shares_bought - (trackAfter trades n).up_shares_sold
      ∧ (trackAfter trades n).down_position
        = (trackAfter trades n).down_shares_bought - (trackAfter trades n).down_shares_sold :=
  posInv_fold _ initState (by norm_num [initState]) (by norm_num [initState])

/-- C2 counterexample: after SELL Up 10@0.50 then BUY Up 5@0.40 the Up
position is -5 (non-positive) yet `up_total_cost` is 2, not 0. -/
theorem total_cost_not_reset_on_buy :
    (trackAfter exC2 2).up_position ≤ 0 ∧ (trackAfter exC2 2).up_total_cost ≠ 0 := by
  simp [trackAfter, exC2, sortTrades, List.insertionSort, List.orderedInsert,
    processTrade, mkEntry, initState, tsLE, String.reduceEq]
  norm_num

/-- C2 amended: whenever a position is non-positive the corresponding average
price is 0; `total_cost` is additionally reset to 0 by any SELL that leaves
the position non-positive, but a BUY that leaves the position non-positive
adds the trade value to `total_cost` without any reset. -/
theorem avg_price_reset_invariant (trades : List Trade)
    (hsz : ∀ t ∈ trades, 0 ≤ t.size) (n : Nat) :
    ((trackAfter trades n).up_position ≤ 0 → (trackAfter trades n).up_avg_price = 0)
      ∧ ((trackAfter trades n).down_position ≤ 0 → (trackAfter trades n).down_avg_price = 0)
      ∧ ∀ (s : TrackState) (t : Trade), ¬ t.side = "BUY" →
          ((t.outcome = "Up" → (processTrade s t).up_position ≤ 0 →
              (processTrade s t).up_total_cost = 0 ∧ (processTrade s t).up_avg_price = 0)
            ∧ (¬ t.outcome = "Up" → (processTrade s t).down_position ≤ 0 →
              (processTrade s t).down_total_cost = 0 ∧ (processTrade s t).down_avg_price = 0)) := by
  have hsz' : ∀ t ∈ (sortTrades trades).take n, 0 ≤ t.size := fun t ht =>
    hsz t ((List.perm_insertionSort tsLE trades).subset (List.take_subset _ _ ht))
  have h := avgInv_fold ((sortTrades trades).take n) initState hsz'
    (fun _ => rfl) (fun _ => rfl)
  exact ⟨h.1, h.2, fun s t hside => sell_reset s t hside⟩

/-- Witness for `avg_price_reset_invariant` at a concrete input: after the
oversell in `exC2` the Up position is negative and the average price is 0. -/
theorem avg_price_reset_invariant_witness :
    (trackAfter exC2 1).up_position ≤ 0 ∧ (trackAfter exC2 1).up_avg_price = 0 := by
  have hle : (trackAfter exC2 1).up_position ≤ 0 := by
    simp [trackAfter, exC2, sortTrades, List.insertionSort, List.orderedInsert,
      processTrade, mkEntry, initState, tsLE, String.reduceEq]
  exact ⟨hle, (avg_price_reset_invariant exC2 (by norm_num [exC2]) 1).1 hle⟩

/-- C1 evaluation at the failing input `exC1`: the timeline's non-null states
are at timestamps 1 (profitable) and 3 (unprofitable), the previous non-null
entry before the state change at 3 is the entry at 1, yet the closed
profitable interval ends at 2 -- the datetime of the intervening null entry,
i.e. of the entry immediately preceding in the full timeline. -/
theorem profitable_interval_ends_at_null_entry :
    (analyze_trades exC1).profitable_intervals = [⟨1, 2⟩]
      ∧ (analyze_trades exC1).unprofitable_intervals = [⟨3, 3⟩]
      ∧ (analyze_trades exC1).profitability_timeline.map
          (fun e => (e.timestamp, e.is_profitable))
          = [(0, none), (1, some true), (2, none), (3, some false)] := by
  simp [analyze_trades, exC1, sortTrades, List.insertionSort, List.orderedInsert,
    processTrade, mkEntry, initState, tsLE, String.reduceEq,
    detectIntervals, intervalStep, prevDatetime, firstIdx, firstMoment,
    timeDiffs, List.find?, List.getD, List.getLastD, dummyEntry]
  norm_num

theorem mkEntry_cases (t : Trade) (s : TrackState) :
    ((0 < (mkEntry t s).up_position ∧ 0 < (mkEntry t s).down_position) →
        (mkEntry t s).total_avg_price
            = (mkEntry t s).up_avg_price + (mkEntry t s).down_avg_price
          ∧ (mkEntry t s).is_profitable = some (decide ((mkEntry t s).total_avg_price < 1)))
      ∧ ((0 < (mkEntry t s).up_position ∧ ¬ 0 < (mkEntry t s).down_position) →
        (mkEntry t s).total_avg_price = (mkEntry t s).up_avg_price
          ∧ (mkEntry t s).is_profitable = none)
      ∧ ((¬ 0 < (mkEntry t s).up_position ∧ 0 < (mkEntry t s).down_position) →
        (mkEntry t s).total_avg_price = (mkEntry t s).down_avg_price
          ∧ (mkEntry t s).is_profitable = none)
      ∧ ((¬ 0 < (mkEntry t s).up_position ∧ ¬ 0 < (mkEntry t s).down_position) →
        (mkEntry t s).total_avg_price = 0 ∧ (mkEntry t s).is_profitable = none) := by
  unfold mkEntry
  by_cases hu : 0 < s.up_position <;> by_cases hd : 0 < s.down_position <;>
    simp [hu, hd]

theorem processTrade_timeline (s : TrackState) (t : Trade) :
    ∃ s1 : TrackState, (processTrade s t).profitability_timeline
      = s.profitability_timeline ++ [mkEntry t s1] := by
  unfold processTrade
  by_cases ho : t.outcome = "Up" <;> by_cases hs : t.side = "BUY" <;> simp [ho, hs]

theorem timeline_fold_forall (P : TimelineEntry → Prop)
    (hP : ∀ (t : Trade) (s : TrackState), P (mkEntry t s)) (l : List Trade) :
    ∀ s : TrackState, (∀ e ∈ s.profitability_timeline, P e) →
      ∀ e ∈ (l.foldl processTrade s).profitability_timeline, P e := by
  induction l with
  | nil => intro s hs; exact hs
  | cons t ts ih =>
    intro s hs
    apply ih
    obtain ⟨s1, heq⟩ := processTrade_timeline s t
    rw [heq]
    intro e he
    rcases List.mem_append.mp he with h | h
    · exact hs e h
    · rcases List.mem_singleton.mp h with rfl
      exact hP t s1

/-- C3: every emitted profitability-timeline entry satisfies the
three-way hedge classification of the profitability evaluator. -/
theorem timeline_entry_classification (trades : List Trade) :
    ∀ e ∈ (analyze_trades trades).profitability_timeline,
      ((0 < e.up_position ∧ 0 < e.down_position) →
          e.total_avg_price = e.up_avg_price + e.down_avg_price
            ∧ e.is_profitable = some (decide (e.total_avg_price < 1)))
        ∧ ((0 < e.up_position ∧ ¬ 0 < e.down_position) →
          e.total_avg_price = e.up_avg_price ∧ e.is_profitable = none)
        ∧ ((¬ 0 < e.up_position ∧ 0 < e.down_position) →
          e.total_avg_price = e.down_avg_price ∧ e.is_profitable = none)
        ∧ ((¬ 0 < e.up_position ∧ ¬ 0 < e.down_position) →
          e.total_avg_price = 0 ∧ e.is_profitable = none) := by
  have hrw : (analyze_trades trades).profitability_timeline
      = ((sortTrades trades).foldl processTrade initState).profitability_timeline := rfl
  rw [hrw]
  exact timeline_fold_forall _ (fun t s => mkEntry_cases t s) (sortTrades trades)
    initState (by simp [initState])

/-- Witness for `timeline_entry_classification`: the single entry produced by
scenario 1 (one BUY Up 10@0.40) is single-sided, so its total average price
is the Up average price and its profitability flag is null. -/
theorem timeline_entry_classification_witness :
    eS1.total_avg_price = eS1.up_avg_price ∧ eS1.is_profitable = none := by
  have hmem : eS1 ∈ (analyze_trades exS1).profitability_timeline := by
    simp [analyze_trades, exS1, sortTrades, List.insertionSort, List.orderedInsert,
      processTrade, mkEntry, initState, tsLE, String.reduceEq, eS1,
      detectIntervals, intervalStep, firstMoment, timeDiffs]
  exact (timeline_entry_classification exS1 eS1 hmem).2.1 (by norm_num [eS1])
/-- C4: realized PnL per outcome is proceeds minus shares sold times the
final aggregate average cost (0 when nothing was bought), the total is the
sum of the two, and scenario 4 yields an Up realized PnL of exactly 1. -/
theorem realized_pnl_formula (trades : List Trade) :
    (analyze_trades trades).up_realized_pnl
        = (analyze_trades trades).up_proceeds - (analyze_trades trades).up_shares_sold *
            (if 0 < (analyze_trades trades).up_shares_bought then
              (analyze_trades trades).up_cost_basis / (analyze_trades trades).up_shares_bought
            else 0)
      ∧ (analyze_trades trades).down_realized_pnl
        = (analyze_trades trades).down_proceeds - (analyze_trades trades).down_shares_sold *
            (if 0 < (analyze_trades trades).down_shares_bought then
              (analyze_trades trades).down_cost_basis / (analyze_trades trades).down_shares_bought
            else 0)
      ∧ (analyze_trades trades).total_realized_pnl
          = (analyze_trades trades).up_realized_pnl + (analyze_trades trades).down_realized_pnl
      ∧ ((analyze_trades trades).up_shares_bought = 0 →
          (analyze_trades trades).up_realized_pnl = (analyze_trades trades).up_proceeds)
      ∧ (analyze_trades exS4).up_realized_pnl = 1 := by
  refine ⟨rfl, rfl, rfl, ?_, ?_⟩
  · intro h
    show (analyze_trades trades).up_proceeds - (analyze_trades trades).up_shares_sold *
        (if 0 < (analyze_trades trades).up_shares_bought then
          (analyze_trades trades).up_cost_basis / (analyze_trades trades).up_shares_bought
        else 0) = (analyze_trades trades).up_proceeds
    rw [h]
    norm_num
  · simp [analyze_trades, exS4, sortTrades, List.insertionSort, List.orderedInsert,
      processTrade, mkEntry, initState, tsLE, String.reduceEq,
      detectIntervals, intervalStep, firstMoment, timeDiffs]
    norm_num

/-- Witness for `realized_pnl_formula`: on the empty trade list nothing was
bought, and the Up realized PnL equals the Up proceeds. -/
theorem realized_pnl_formula_witness :
    (analyze_trades []).up_realized_pnl = (analyze_trades []).up_proceeds :=
  (realized_pnl_formula []).2.2.2.1 (by norm_num [analyze_trades, sortTrades,
    List.insertionSort, initState, detectIntervals, firstMoment, timeDiffs])
/-- C8: the empty trade list does not fail (no division error) and returns
the all-zero/empty result: every aggregate 0, empty timeline, empty interval
lists, and null first-profitable / first-unprofitable markers. -/
theorem empty_trades_result :
    analyze_trades []
        = { up_buys := [], up_sells := [], down_buys := [], down_sells := []
            up_shares_bought := 0, up_shares_sold := 0
            down_shares_bought := 0, down_shares_sold := 0
            up_cost_basis := 0, up_proceeds := 0, down_cost_basis := 0, down_proceeds := 0
            up_final_position := 0, down_final_position := 0
            up_avg_price := 0, down_avg_price := 0
            profitability_timeline := [], profitable_intervals := []
            unprofitable_intervals := [], first_profitable := none, first_unprofitable := none
            up_realized_pnl := 0, down_realized_pnl := 0, total_realized_pnl := 0
            avg_time_between_trades := 0
            up_buy_prices := [], up_sell_prices := [], down_buy_prices := []
            down_sell_prices := [], up_buy_sizes := [], down_buy_sizes := [] }
      ∧ analyzeChecked [] = some (analyze_trades []) := by
  constructor
  · simp [analyze_trades, sortTrades, List.insertionSort, initState,
      detectIntervals, firstMoment, timeDiffs, AnalysisResult.mk.injEq]
  · exact analyzeChecked_eq []
/-- C7: on every input list, every division performed by `analyze_trades` is
behind a positivity guard, so the checked interpretation (which fails on any
zero denominator) always succeeds and agrees with the unchecked one. -/
theorem analysis_never_divides_by_zero (trades : List Trade) :
    analyzeChecked trades = some (analyze_trades trades) :=
  analyzeChecked_eq trades

/-- C10: the trade dispatch is by exact string equality with no validation:
any `side` other than `"BUY"` is processed as a SELL (identically to the
same trade relabelled `"SELL"`, up to the stored raw records), any `outcome`
other than `"Up"` is processed as a Down trade, and no error is raised. -/
theorem unrecognized_strings_dispatch (s : TrackState) (t : Trade) :
    (¬ t.side = "BUY" →
        stripTrades (processTrade s t)
            = stripTrades (processTrade s { t with side := "SELL" })
          ∧ (t.outcome = "Up" → (processTrade s t).up_sells = s.up_sells ++ [t])
          ∧ (¬ t.outcome = "Up" → (processTrade s t).down_sells = s.down_sells ++ [t]))
      ∧ (¬ t.outcome = "Up" →
          stripTrades (processTrade s t)
              = stripTrades (processTrade s { t with outcome := "Down" })
            ∧ (t.side = "BUY" → (processTrade s t).down_buys = s.down_buys ++ [t]))
      ∧ processTradeChecked s t = some (processTrade s t) := by
  refine ⟨?_, ?_, processTradeChecked_eq s t⟩
  · intro hside
    unfold processTrade stripTrades
    by_cases ho : t.outcome = "Up" <;>
      simp [ho, hside, mkEntry, String.reduceEq]
  · intro ho
    unfold processTrade stripTrades
    by_cases hs2 : t.side = "BUY" <;>
      simp [ho, hs2, mkEntry, String.reduceEq]

/-- Witness for `unrecognized_strings_dispatch`: a trade with side `"HOLD"`
is processed exactly like the same trade with side `"SELL"`. -/
theorem unrecognized_strings_dispatch_witness :
    stripTrades (processTrade initState tOdd)
      = stripTrades (processTrade initState { tOdd with side := "SELL" }) :=
  ((unrecognized_strings_dispatch initState tOdd).1 (by simp [tOdd])).1

theorem fold_trade_lists (l : List Trade) :
    ∀ s : TrackState,
      (l.foldl processTrade s).up_buys = s.up_buys ++ l.filter isUpBuy
        ∧ (l.foldl processTrade s).up_sells = s.up_sells ++ l.filter isUpSell
        ∧ (l.foldl processTrade s).down_buys = s.down_buys ++ l.filter isDownBuy
        ∧ (l.foldl processTrade s).down_sells = s.down_sells ++ l.filter isDownSell := by
  induction l with
  | nil => intro s; simp
  | cons t ts ih =>
    intro s
    have hstep :
        (processTrade s t).up_buys = s.up_buys ++ (if isUpBuy t then [t] else [])
          ∧ (processTrade s t).up_sells = s.up_sells ++ (if isUpSell t then [t] else [])
          ∧ (processTrade s t).down_buys = s.down_buys ++ (if isDownBuy t then [t] else [])
          ∧ (processTrade s t).down_sells = s.down_sells ++ (if isDownSell t then [t] else []) := by
      unfold processTrade
      by_cases ho : t.outcome = "Up" <;> by_cases hs2 : t.side = "BUY" <;>
        simp [ho, hs2, isUpBuy, isUpSell, isDownBuy, isDownSell]
    obtain ⟨h1, h2, h3, h4⟩ := ih (processTrade s t)
    simp only [List.foldl_cons, List.filter_cons]
    rw [h1, h2, h3, h4, hstep.1, hstep.2.1, hstep.2.2.1, hstep.2.2.2]
    split_ifs <;> simp

/-- C9: the in-place sort's caller-visible effect, value-level: after the
call the trade list is a permutation of the input in non-decreasing
timestamp order, and the result's four trade-record lists are exactly the
matching filters of that same sorted list (the same record values). -/
theorem caller_list_sorted_in_place (trades : List Trade) :
    (sortTrades trades).Perm trades
      ∧ (sortTrades trades).Sorted tsLE
      ∧ (analyze_trades trades).up_buys = (sortTrades trades).filter isUpBuy
      ∧ (analyze_trades trades).up_sells = (sortTrades trades).filter isUpSell
      ∧ (analyze_trades trades).down_buys = (sortTrades trades).filter isDownBuy
      ∧ (analyze_trades trades).down_sells = (sortTrades trades).filter isDownSell := by
  have h := fold_trade_lists (sortTrades trades) initState
  exact ⟨List.perm_insertionSort tsLE trades, List.sorted_insertionSort tsLE trades,
    by simpa [initState] using h.1, by simpa [initState] using h.2.1,
    by simpa [initState] using h.2.2.1, by simpa [initState] using h.2.2.2⟩

theorem filter_hasTs_cons_pos {t : Trade} {τ : Int} (h : t.timestamp = τ)
    (l : List Trade) : (t :: l).filter (hasTs τ) = t :: l.filter (hasTs τ) := by
  simp [List.filter_cons, hasTs, h]

theorem filter_hasTs_cons_neg {t : Trade} {τ : Int} (h : ¬ t.timestamp = τ)
    (l : List Trade) : (t :: l).filter (hasTs τ) = l.filter (hasTs τ) := by
  simp [List.filter_cons, hasTs, h]

theorem sortTrades_filter (τ : Int) (l : List Trade) :
    (sortTrades l).filter (hasTs τ) = l.filter (hasTs τ) := by
  have hpw : (l.filter (hasTs τ)).Pairwise tsLE := by
    apply List.pairwise_of_forall_mem_list
    intro a ha b hb
    have ha' := (List.mem_filter.mp ha).2
    have hb' := (List.mem_filter.mp hb).2
    simp only [hasTs, decide_eq_true_eq] at ha' hb'
    show a.timestamp ≤ b.timestamp
    rw [ha', hb']
  have h0 : List.Sublist (l.filter (hasTs τ)) (sortTrades l) :=
    List.sublist_insertionSort hpw (List.filter_sublist l)
  have h2 : List.Sublist (l.filter (hasTs τ)) ((sortTrades l).filter (hasTs τ)) := by
    have := h0.filter (hasTs τ)
    rwa [List.filter_eq_self.mpr (fun a ha => (List.mem_filter.mp ha).2)] at this
  have hlen : ((sortTrades l).filter (hasTs τ)).length = (l.filter (hasTs τ)).length :=
    ((List.perm_insertionSort tsLE l).filter (hasTs τ)).length_eq
  exact (h2.eq_of_length hlen.symm).symm

theorem eq_of_sorted_of_filters_eq (l1 : List Trade) :
    ∀ l2 : List Trade, l1.Sorted tsLE → l2.Sorted tsLE →
      (∀ τ : Int, l1.filter (hasTs τ) = l2.filter (hasTs τ)) → l1 = l2 := by
  induction l1 with
  | nil =>
    intro l2 _ _ h
    cases l2 with
    | nil => rfl
    | cons b ys =>
      exfalso
      have hb := h b.timestamp
      rw [List.filter_nil, filter_hasTs_cons_pos rfl] at hb
      exact List.cons_ne_nil _ _ hb.symm
  | cons a xs ih =>
    intro l2 h1 h2 h
    cases l2 with
    | nil =>
      exfalso
      have ha := h a.timestamp
      rw [List.filter_nil, filter_hasTs_cons_pos rfl] at ha
      exact List.cons_ne_nil _ _ ha
    | cons b ys =>
      have hts : a.timestamp = b.timestamp := by
        by_contra hne
        have ha := h a.timestamp
        have hb := h b.timestamp
        rw [filter_hasTs_cons_pos rfl, filter_hasTs_cons_neg (fun hh => hne hh.symm)] at ha
        rw [filter_hasTs_cons_neg hne, filter_hasTs_cons_pos rfl] at hb
        have hmem1 : a ∈ ys.filter (hasTs a.timestamp) := by
          rw [← ha]; exact List.mem_cons_self a _
        have hmem2 : b ∈ xs.filter (hasTs b.timestamp) := by
          rw [hb]; exact List.mem_cons_self b _
        have hba : tsLE b a :=
          List.rel_of_sorted_cons h2 a (List.mem_of_mem_filter hmem1)
        have hab : tsLE a b :=
          List.rel_of_sorted_cons h1 b (List.mem_of_mem_filter hmem2)
        exact hne (le_antisymm hab hba)
      have hhead := h a.timestamp
      rw [filter_hasTs_cons_pos rfl, filter_hasTs_cons_pos hts.symm] at hhead
      rw [List.cons.injEq] at hhead
      have htails : ∀ τ : Int, xs.filter (hasTs τ) = ys.filter (hasTs τ) := by
        intro τ
        by_cases hτ : τ = a.timestamp
        · subst hτ
          exact hhead.2
        · have hh := h τ
          rw [filter_hasTs_cons_neg (fun hc => hτ hc.symm),
            filter_hasTs_cons_neg (fun hc => hτ ((hts ▸ hc).symm))] at hh
          exact hh
      rw [hhead.1, ih ys h1.of_cons h2.of_cons htails]
/-- C6: the analysis result is invariant under reordering the input as long
as the relative order of equal-timestamp trades is kept (equal filters at
every timestamp); moreover sorting is by non-decreasing timestamp and an
already-sorted list is left unchanged. -/
theorem analysis_stable_order_invariant (l1 l2 : List Trade)
    (_hperm : l1.Perm l2)
    (hfil : ∀ τ : Int, l1.filter (hasTs τ) = l2.filter (hasTs τ)) :
    analyze_trades l1 = analyze_trades l2
      ∧ (∀ l : List Trade, l.Sorted tsLE → sortTrades l = l)
      ∧ (∀ l : List Trade, (sortTrades l).Sorted tsLE)
      ∧ (∀ (l : List Trade) (τ : Int),
          (sortTrades l).filter (hasTs τ) = l.filter (hasTs τ)) := by
  have hsort : sortTrades l1 = sortTrades l2 :=
    eq_of_sorted_of_filters_eq _ _ (List.sorted_insertionSort tsLE l1)
      (List.sorted_insertionSort tsLE l2)
      (fun τ => (sortTrades_filter τ l1).trans
        ((hfil τ).trans (sortTrades_filter τ l2).symm))
  refine ⟨?_, fun l hl => hl.insertionSort_eq, fun l => List.sorted_insertionSort tsLE l,
    fun l τ => sortTrades_filter τ l⟩
  unfold analyze_trades
  rw [hsort]

/-- Witness for `analysis_stable_order_invariant`: the two orderings of the
same two distinct-timestamp trades give identical results. -/
theorem analysis_stable_order_invariant_witness :
    analyze_trades exSwap1 = analyze_trades exSwap2 :=
  (analysis_stable_order_invariant exSwap1 exSwap2
    (List.Perm.swap _ _ _)
    (by
      intro τ
      unfold exSwap1 exSwap2
      by_cases h5 : (5 : Int) = τ <;> by_cases h3 : (3 : Int) = τ <;>
        simp [List.filter_cons, hasTs, h5, h3] <;>
        exact absurd (h3.trans h5.symm) (by decide))).1
